import Mathlib

/-!
Verification development for the client-side behavior layer in
`app/static/js/main.js` (plus the variant bootstrap file shipped alongside it).
The JavaScript is shallowly embedded: pure helpers become Lean functions on
`String` / `List Char`, DOM event handlers become functions from an explicit
state to a new state, and timer behavior becomes explicit state passing over
event timelines.  ECMAScript platform primitives used by the code
(`Number(...)` conversion, `String.prototype.replace` / `replaceAll` /
`trim`, `JSON.parse`) are modelled faithfully for the value domains this
program exercises.
-/

namespace MainJs

/-! ## JavaScript numbers

The program only ever compares and bound-checks numbers obtained from
`Number(...)` applied to attribute strings.  We model a JavaScript number as
either NaN, a signed infinity, or a finite rational. -/

/-- A JavaScript number as the program observes it: NaN, ±Infinity, or a
finite value (modelled as a rational; the program performs no arithmetic that
would expose binary floating-point rounding). -/
inductive JSNum where
  | nan : JSNum
  | inf (neg : Bool) : JSNum
  | fin (q : ℚ) : JSNum
  deriving DecidableEq, Repr

/-- `Number.isFinite`. -/
def JSNum.isFinite : JSNum → Bool
  | .fin _ => true
  | _ => false

/-- The `<` comparison on JavaScript numbers: any comparison with NaN is
false; `-Infinity` is below every finite value and `Infinity` above. -/
def JSNum.lt : JSNum → JSNum → Bool
  | .nan, _ => false
  | _, .nan => false
  | .inf a, .inf b => a && !b
  | .inf a, .fin _ => a
  | .fin _, .inf b => !b
  | .fin p, .fin q => p < q

/-! ## JavaScript string primitives -/

/-- JavaScript whitespace as relevant to `trim` / `Number` conversion. -/
def isJsWs (c : Char) : Bool :=
  c = ' ' || c = '\t' || c = '\n' || c = '\r'

/-- `String.prototype.trim`, on the character list. -/
def trimC (s : List Char) : List Char :=
  ((s.dropWhile isJsWs).reverse.dropWhile isJsWs).reverse

/-- `String.prototype.replace(pat, rep)` for a one-character pattern and
one-character replacement: replaces only the first occurrence. -/
def replaceFirstC (pat rep : Char) : List Char → List Char
  | [] => []
  | c :: cs => if c = pat then rep :: cs else c :: replaceFirstC pat rep cs

/-- `String.prototype.replaceAll(pat, rep)` for a one-character pattern:
every occurrence is replaced by the replacement string. -/
def replaceAllC (pat : Char) (rep : List Char) : List Char → List Char
  | [] => []
  | c :: cs => (if c = pat then rep else [c]) ++ replaceAllC pat rep cs

/-- Numeric value of a digit list read in base 10 (helper for the `Number`
model). -/
def digitsVal (cs : List Char) : ℕ :=
  cs.foldl (fun acc c => 10 * acc + (c.toNat - '0'.toNat)) 0

/-- Decimal-literal parsing used by the `Number` model: an optional exponent
`e`/`E` with optional sign and mandatory digits, applied to an already parsed
mantissa value. Returns `none` when the trailing characters are not a valid
exponent. -/
def finishExp (base : ℚ) (rest : List Char) : Option ℚ :=
  match rest with
  | [] => some base
  | e :: rest2 =>
    if e = 'e' ∨ e = 'E' then
      let sd : Bool × List Char :=
        match rest2 with
        | '+' :: r => (false, r)
        | '-' :: r => (true, r)
        | r => (false, r)
      if sd.2 ≠ [] ∧ sd.2.all Char.isDigit then
        let ex : ℤ := if sd.1 then -(digitsVal sd.2 : ℤ) else (digitsVal sd.2 : ℤ)
        some (base * (10 : ℚ) ^ ex)
      else none
    else none

/-- Unsigned decimal literal: `digits`, `digits.digits`, `.digits` or
`digits.`, each with an optional exponent.  Returns `none` when the
characters are not such a literal. -/
def parseUnsigned (cs : List Char) : Option ℚ :=
  let ip := cs.takeWhile Char.isDigit
  let r1 := cs.dropWhile Char.isDigit
  match r1 with
  | '.' :: rest =>
    let fp := rest.takeWhile Char.isDigit
    let r2 := rest.dropWhile Char.isDigit
    if ip = [] ∧ fp = [] then none
    else finishExp ((digitsVal ip : ℚ) + (digitsVal fp : ℚ) / (10 : ℚ) ^ fp.length) r2
  | _ =>
    if ip = [] then none else finishExp (digitsVal ip : ℚ) r1

/-- The ECMAScript `Number(string)` conversion, modelled for the string
shapes this program feeds it: surrounding whitespace is ignored, the empty
string converts to `0`, `Infinity` with optional sign to an infinity, a
signed decimal literal to its value, and anything else to NaN. -/
def jsNumber (s : List Char) : JSNum :=
  let t := trimC s
  if t = [] then .fin 0
  else
    let sb : Bool × List Char :=
      match t with
      | '-' :: r => (true, r)
      | '+' :: r => (false, r)
      | r => (false, r)
    if sb.2 = ['I', 'n', 'f', 'i', 'n', 'i', 't', 'y'] then .inf sb.1
    else
      match parseUnsigned sb.2 with
      | some q => .fin (if sb.1 then -q else q)
      | none => .nan

/-- `parseNumber` from `main.js`: `null`/`undefined` (modelled as `none`)
give NaN; otherwise the first comma is replaced by a dot, the string is
trimmed, and the result is converted with `Number`. -/
def parseNumber (s : Option String) : JSNum :=
  match s with
  | none => .nan
  | some str => jsNumber (trimC (replaceFirstC ',' '.' str.data))

/-! ## `escapeHtml` -/

/-- The five replacement entities, as character lists. -/
def ampEnt : List Char := ['&', 'a', 'm', 'p', ';']

/-- Entity replacing `<`. -/
def ltEnt : List Char := ['&', 'l', 't', ';']

/-- Entity replacing `>`. -/
def gtEnt : List Char := ['&', 'g', 't', ';']

/-- Entity replacing the double quote. -/
def quotEnt : List Char := ['&', 'q', 'u', 'o', 't', ';']

/-- Entity replacing the single quote. -/
def aposEnt : List Char := ['&', '#', '0', '3', '9', ';']

/-- The single-quote character, by code point. -/
def sq : Char := Char.ofNat 39

/-- `escapeHtml` from `main.js`, on character lists: sequential `replaceAll`
passes, ampersand first, then `<`, `>`, `"`, `'`. -/
def escapeHtmlC (s : List Char) : List Char :=
  replaceAllC sq aposEnt
    (replaceAllC '"' quotEnt
      (replaceAllC '>' gtEnt
        (replaceAllC '<' ltEnt
          (replaceAllC '&' ampEnt s))))

/-- `escapeHtml` on strings. -/
def escapeHtml (s : String) : String :=
  String.mk (escapeHtmlC s.data)

/-! ## Debounce / auto-submit filters

`debounce(fn, ms)` keeps a single timer handle `t`; each call clears any
pending timer and schedules a fresh one `ms` later.  We embed the timer
semantics over an explicit timeline: the state is the optional firing time of
the pending timer, plus the list of firing times that already elapsed.  In
`initAutoSubmitFilters`, `fn` is `() => form.submit()`, so each firing is one
form resubmission. -/

/-- Debounce state: the pending timer's firing time (if any), and the times
at which the debounced function has already fired. -/
structure DebounceState where
  pending : Option ℕ
  fires : List ℕ
  deriving DecidableEq, Repr

/-- One qualifying input event at time `t` on a control debounced with
interval `ms`: a pending timer whose firing time has already been reached
fires first; otherwise `clearTimeout` cancels it; `setTimeout` then schedules
a new firing at `t + ms`. -/
def debounceStep (ms : ℕ) (st : DebounceState) (t : ℕ) : DebounceState :=
  let fired : List ℕ :=
    match st.pending with
    | some ft => if ft ≤ t then st.fires ++ [ft] else st.fires
    | none => st.fires
  ⟨some (t + ms), fired⟩

/-- Run a debounced control over a timeline of event times and let the final
pending timer (if any) elapse: the result is the list of firing times, i.e.
of form resubmissions. -/
def debounceRun (ms : ℕ) (events : List ℕ) : List ℕ :=
  let st := events.foldl (debounceStep ms) ⟨none, []⟩
  match st.pending with
  | some ft => st.fires ++ [ft]
  | none => st.fires

/-! ## Modal controller

`openModal` adds the `is-open` class and sets `aria-hidden="false"`;
`closeModal` removes the class and sets `aria-hidden="true"`.  All markup
triggers (open buttons, close buttons, overlay clicks, escape) funnel into
these two operations, so we reason over arbitrary sequences of them. -/

/-- The observable state of one modal dialog: whether the `is-open` class is
present and the value of the `aria-hidden` attribute. -/
structure ModalState where
  isOpen : Bool
  ariaHidden : String
  deriving DecidableEq, Repr

/-- An invocation of the modal controller on a given dialog. -/
inductive ModalOp where
  | openModal : ModalOp
  | closeModal : ModalOp
  deriving DecidableEq, Repr

/-- Apply one controller operation to a dialog (the dialog is present; the
`if (!modal) return` guard in the source makes an absent dialog a no-op that
never reaches these mutations). -/
def applyModalOp (m : ModalState) : ModalOp → ModalState
  | .openModal => { m with isOpen := true, ariaHidden := "false" }
  | .closeModal => { m with isOpen := false, ariaHidden := "true" }

/-- Visual open state and accessibility-hidden attribute agree. -/
def modalAgrees (m : ModalState) : Prop :=
  (m.isOpen = true → m.ariaHidden = "false") ∧
  (m.isOpen = false → m.ariaHidden = "true")

instance (m : ModalState) : Decidable (modalAgrees m) := by
  unfold modalAgrees; infer_instance

/-! ## Numeric input validator -/

/-- Observable state of an `input[data-numeric='1']`: its value, whether the
`is-invalid` class is present, and the `data-min` / `data-max` attributes
(`none` when absent). -/
structure NumericInput where
  value : String
  invalid : Bool
  dataMin : Option String
  dataMax : Option String
  deriving DecidableEq, Repr

/-- The normalization the blur handler applies to the field's value: first
comma replaced by a dot, then trimmed. -/
def normalizeValue (v : String) : String :=
  String.mk (trimC (replaceFirstC ',' '.' v.data))

/-- The blur handler of `initNumericInputs`: an empty value returns early;
otherwise the value is normalized in place, reparsed with `parseNumber`, the
bounds are parsed from the attributes, and `is-invalid` is set exactly when a
finite bound is violated, cleared otherwise. -/
def numericBlur (inp : NumericInput) : NumericInput :=
  if inp.value = "" then inp
  else
    let v := normalizeValue inp.value
    let n := parseNumber (some v)
    let nmin := parseNumber inp.dataMin
    let nmax := parseNumber inp.dataMax
    let bad := (nmin.isFinite && JSNum.lt n nmin) || (nmax.isFinite && JSNum.lt nmax n)
    { inp with value := v, invalid := bad }

/-! ## Confirmation guard -/

/-- The part of a DOM event the guard can affect. -/
structure EventState where
  defaultPrevented : Bool
  propagationStopped : Bool
  deriving DecidableEq, Repr

/-- JavaScript `attr || default` for a string attribute value. -/
def jsOrDefault (attr : String) (dflt : String) : String :=
  if attr = "" then dflt else attr

/-- The body shared by the click handler and the capturing submit handler of
`initConfirms` (and by the per-element click listener of the variant
bootstrap): the prompt is the `data-confirm` text or the default message;
declining calls `preventDefault` and `stopPropagation`, accepting leaves the
event untouched. -/
def confirmGuard (attr : String) (confirm : String → Bool) (e : EventState) : EventState :=
  let msg := jsOrDefault attr "Подтвердить действие?"
  if confirm msg then e
  else { e with defaultPrevented := true, propagationStopped := true }

/-! ## Chart bootstrap

`initCharts` reads declarative attributes from each `.js-chart` canvas,
parses the label/value arrays with `JSON.parse`, and builds the dataset list:
a primary series plus a flat dashed reference series per finite bound.  The
`JSON.parse` platform primitive is modelled for the data shapes the templates
emit: flat arrays of plain decimal numbers and escape-free strings; any other
input is a parse throw (`SyntaxError`). -/

/-- A scalar JSON value occurring in `data-labels` / `data-values`. -/
inductive JVal where
  | num (q : ℚ)
  | str (s : String)
  deriving DecidableEq, Repr

/-- JSON insignificant whitespace. -/
def skipWsJ (cs : List Char) : List Char :=
  cs.dropWhile isJsWs

/-- Parse one JSON number (optional minus, digits, optional fraction),
returning the value and the remaining characters. -/
def parseJsonNumber (cs : List Char) : Option (ℚ × List Char) :=
  let nb : Bool × List Char :=
    match cs with
    | '-' :: r => (true, r)
    | r => (false, r)
  let ip := nb.2.takeWhile Char.isDigit
  let r1 := nb.2.dropWhile Char.isDigit
  if ip = [] then none
  else
    match r1 with
    | '.' :: rest =>
      let fp := rest.takeWhile Char.isDigit
      let r2 := rest.dropWhile Char.isDigit
      if fp = [] then none
      else
        let q : ℚ := (digitsVal ip : ℚ) + (digitsVal fp : ℚ) / (10 : ℚ) ^ fp.length
        some (if nb.1 then -q else q, r2)
    | _ => some (if nb.1 then -(digitsVal ip : ℚ) else (digitsVal ip : ℚ), r1)

/-- Parse one JSON scalar: a double-quoted escape-free string or a number. -/
def parseJsonScalar (cs : List Char) : Option (JVal × List Char) :=
  match cs with
  | '"' :: rest =>
    let body := rest.takeWhile (fun c => c ≠ '"')
    match rest.dropWhile (fun c => c ≠ '"') with
    | '"' :: r => some (.str (String.mk body), r)
    | _ => none
  | _ =>
    match parseJsonNumber cs with
    | some (q, r) => some (.num q, r)
    | none => none

/-- Parse the comma-separated items of a JSON array up to and including the
closing bracket.  The fuel argument dominates the number of items and makes
the recursion structural. -/
def parseJsonItems (fuel : ℕ) (cs : List Char) : Option (List JVal × List Char) :=
  match fuel with
  | 0 => none
  | fuel' + 1 =>
    match parseJsonScalar (skipWsJ cs) with
    | none => none
    | some (v, r) =>
      match skipWsJ r with
      | ']' :: r2 => some ([v], r2)
      | ',' :: r2 =>
        match parseJsonItems fuel' r2 with
        | some (vs, r3) => some (v :: vs, r3)
        | none => none
      | _ => none

/-- `JSON.parse` on a flat-array document: `Except.error` models the thrown
`SyntaxError` that the per-canvas `try`/`catch` intercepts. -/
def jsonParseArr (s : String) : Except String (List JVal) :=
  match skipWsJ s.data with
  | '[' :: r =>
    match skipWsJ r with
    | ']' :: r2 => if skipWsJ r2 = [] then .ok [] else .error "SyntaxError"
    | _ =>
      match parseJsonItems (r.length + 1) r with
      | some (vs, rest) => if skipWsJ rest = [] then .ok vs else .error "SyntaxError"
      | none => .error "SyntaxError"
  | _ => .error "SyntaxError"

/-- JavaScript `attr || default` where `attr` is a `getAttribute` result
(`none` models `null`). -/
def jsAttrOr (attr : Option String) (dflt : String) : String :=
  match attr with
  | some s => if s = "" then dflt else s
  | none => dflt

/-- One dataset of the built chart configuration, with the fields the
bootstrap sets (`tension` and `borderDash` are absent on the series that do
not set them). -/
structure Dataset where
  label : String
  data : List JVal
  borderWidth : ℕ
  tension : Option ℚ
  pointRadius : ℕ
  borderDash : Option (List ℕ)
  deriving DecidableEq, Repr

/-- The declarative attributes of one `.js-chart` canvas (`none` models an
absent attribute). -/
structure Canvas where
  chartType : Option String
  labelAttr : Option String
  labelsAttr : Option String
  valuesAttr : Option String
  minAttr : Option String
  maxAttr : Option String
  deriving DecidableEq, Repr

/-- The parts of the chart configuration handed to the charting engine that
the bootstrap computes (the remaining options are constants). -/
structure ChartConfig where
  chartType : String
  labels : List JVal
  datasets : List Dataset
  deriving DecidableEq, Repr

/-- Build the chart configuration for one canvas: primary series from the
parsed values, then a flat dashed markerless reference series for the finite
minimum bound, then likewise for the maximum.  Fails (throws) exactly when
one of the two `JSON.parse` calls does. -/
def buildChart (c : Canvas) : Except String ChartConfig :=
  match jsonParseArr (jsAttrOr c.labelsAttr "[]") with
  | .error e => .error e
  | .ok labels =>
    match jsonParseArr (jsAttrOr c.valuesAttr "[]") with
    | .error e => .error e
    | .ok values =>
      let primary : Dataset :=
        ⟨jsAttrOr c.labelAttr "Series", values, 2, some ((1 : ℚ) / 4), 2, none⟩
      let minSeries : List Dataset :=
        match parseNumber c.minAttr with
        | .fin m => [⟨"Норма min", labels.map (fun _ => .num m), 1, none, 0, some [6, 6]⟩]
        | _ => []
      let maxSeries : List Dataset :=
        match parseNumber c.maxAttr with
        | .fin m => [⟨"Норма max", labels.map (fun _ => .num m), 1, none, 0, some [6, 6]⟩]
        | _ => []
      .ok ⟨jsAttrOr c.chartType "line", labels, primary :: (minSeries ++ maxSeries)⟩

/-- What happened to one canvas: its chart was constructed, or its error was
logged with `console.warn` and swallowed. -/
inductive ChartOutcome where
  | rendered (cfg : ChartConfig)
  | logged (err : String)
  deriving DecidableEq, Repr

/-- The `try`/`catch` body of the per-canvas loop. -/
def chartAttempt (c : Canvas) : ChartOutcome :=
  match buildChart c with
  | .ok cfg => .rendered cfg
  | .error e => .logged e

/-- The canvas loop of `initCharts` (with the charting engine present): each
canvas is attempted inside its own `try`/`catch`, accumulating outcomes in
document order. -/
def initCharts (canvases : List Canvas) : List ChartOutcome :=
  canvases.foldl (fun acc c => acc ++ [chartAttempt c]) []

/-! ## Clipboard helper -/

/-- The copy-related attributes of the activated element. -/
structure CopyEl where
  dataCopy : Option String
  dataCopyTarget : Option String
  deriving DecidableEq, Repr

/-- The element a `data-copy-target` selector resolves to. -/
structure CopyTarget where
  value : String
  textContent : String
  deriving DecidableEq, Repr

/-- JavaScript truthiness of a `getAttribute` result: `null` and the empty
string are falsy. -/
def jsTruthyOpt (s : Option String) : Bool :=
  match s with
  | some t => t ≠ ""
  | none => false

/-- `t.value || t.textContent || ""` on a resolved target, or `""` when the
selector matched nothing. -/
def targetText (t : Option CopyTarget) : String :=
  match t with
  | some tg =>
    if tg.value ≠ "" then tg.value
    else if tg.textContent ≠ "" then tg.textContent
    else ""
  | none => ""

/-- Resolve the text to copy: the literal `data-copy` attribute when truthy,
otherwise the text of the element the (truthy) `data-copy-target` selector
resolves to. `target` is the document lookup's result for that selector. -/
def resolveCopyText (el : CopyEl) (target : Option CopyTarget) : String :=
  if jsTruthyOpt el.dataCopy then (el.dataCopy).getD ""
  else targetText (if jsTruthyOpt el.dataCopyTarget then target else none)

/-- The observable effects of one activation of the copy handler. -/
structure CopyResult where
  primaryAttempt : Option String
  fallbackWrite : Option String
  feedbackShown : Bool
  deriving DecidableEq, Repr

/-- The copy click handler: empty resolved text returns before any clipboard
access or feedback; otherwise the primary clipboard write is attempted, the
legacy textarea fallback runs only when it rejects, and transient feedback is
shown. `clipboardOk` is whether `navigator.clipboard.writeText` fulfills. -/
def copyClick (el : CopyEl) (target : Option CopyTarget) (clipboardOk : Bool) : CopyResult :=
  let text := resolveCopyText el target
  if text = "" then ⟨none, none, false⟩
  else if clipboardOk then ⟨some text, none, true⟩
  else ⟨some text, some text, true⟩

/-! ## Derived notions used by the statements -/

/-- The five entities `escapeHtml` can emit. -/
def entityList : List (List Char) :=
  [ampEnt, ltEnt, gtEnt, quotEnt, aposEnt]

/-- Per-character effect of the five sequential `replaceAll` passes (the
passes commute into a character map because no pass's replacement contains a
later pass's pattern). -/
def escChar (c : Char) : List Char :=
  if c = '&' then ampEnt
  else if c = '<' then ltEnt
  else if c = '>' then gtEnt
  else if c = '"' then quotEnt
  else if c = sq then aposEnt
  else [c]

/-- `escapeHtmlC` as the concatenation of per-character blocks. -/
def flatEsc : List Char → List Char
  | [] => []
  | c :: cs => escChar c ++ flatEsc cs

/-- A block emitted for one character: nonempty, contains `&` only in head
position, and when it starts with `&` it is one of the five entities. -/
def goodBlock (bl : List Char) : Prop :=
  bl ≠ [] ∧ (∀ c ∈ bl.tail, c ≠ '&') ∧ (bl.head? = some '&' → bl ∈ entityList)

/-- The canvas of the worked chart example: three category labels, values
`[62,65,70]`, minimum bound `50`, maximum bound `90`. -/
def chartExample : Canvas :=
  ⟨none, none, some "[\"a\",\"b\",\"c\"]", some "[62,65,70]", some "50", some "90"⟩

/-- The configuration the bootstrap builds for `chartExample`: the primary
series plus one flat reference series per bound, each bound repeated once per
category label. -/
def chartExampleConfig : ChartConfig :=
  ⟨"line", [.str "a", .str "b", .str "c"],
    [⟨"Series", [.num 62, .num 65, .num 70], 2, some ((1 : ℚ) / 4), 2, none⟩,
     ⟨"Норма min", [.num 50, .num 50, .num 50], 1, none, 0, some [6, 6]⟩,
     ⟨"Норма max", [.num 90, .num 90, .num 90], 1, none, 0, some [6, 6]⟩]⟩

/-! ## Theorems -/

/-- C10: a numeric input that loses focus with an empty value is left
completely untouched by the blur handler — the value is not normalized and
the `is-invalid` class keeps whatever state it had. -/
theorem claim10_blur_empty_value_noop (inp : NumericInput) (h : inp.value = "") :
    numericBlur inp = inp := by
  unfold numericBlur
  simp [h]

/-- Witness for C10 at a concrete input that already carries the invalid
flag: the flag (and everything else) survives the blur unchanged. -/
theorem claim10_blur_empty_value_noop_witness :
    numericBlur ⟨"", true, some "1", some "4"⟩ = ⟨"", true, some "1", some "4"⟩ :=
  claim10_blur_empty_value_noop ⟨"", true, some "1", some "4"⟩ rfl

lemma applyModalOp_agrees (m : ModalState) (op : ModalOp) :
    modalAgrees (applyModalOp m op) := by
  cases op <;> simp [applyModalOp, modalAgrees]

lemma foldl_applyModalOp_agrees (ops : List ModalOp) :
    ∀ init : ModalState, ops ≠ [] → modalAgrees (ops.foldl applyModalOp init) := by
  induction ops with
  | nil => intro _ h; exact absurd rfl h
  | cons op rest ih =>
    intro init _
    cases rest with
    | nil => exact applyModalOp_agrees init op
    | cons op2 rest2 =>
      exact ih (applyModalOp init op) (by simp)

/-- C2: after any nonempty sequence of the modal controller's open and close
operations (all click and escape triggers funnel into these), a dialog's
visual `is-open` state and its `aria-hidden` attribute agree: open implies
`aria-hidden = "false"`, closed implies `aria-hidden = "true"`.  Taking a
one-element sequence gives that each single operation updates both
together. -/
theorem claim2_modal_open_aria_agree (init : ModalState) (ops : List ModalOp)
    (h : ops ≠ []) : modalAgrees (ops.foldl applyModalOp init) :=
  foldl_applyModalOp_agrees ops init h

/-- Witness for C2: starting from a dialog whose class and attribute
disagree, an open followed by a close leaves an agreeing state. -/
theorem claim2_modal_open_aria_agree_witness :
    modalAgrees ([ModalOp.openModal, ModalOp.closeModal].foldl applyModalOp ⟨true, "broken"⟩) :=
  claim2_modal_open_aria_agree ⟨true, "broken"⟩ [ModalOp.openModal, ModalOp.closeModal]
    (by simp)

/-- C6: for a click on an element carrying `data-confirm` (and likewise for
a submission of a form carrying it — both handlers share this body),
declining the prompt sets `defaultPrevented` and stops propagation, while
accepting leaves the event exactly as it was. -/
theorem claim6_confirm_guard_blocks (attr : String) (confirm : String → Bool)
    (e : EventState) :
    (confirm (jsOrDefault attr "Подтвердить действие?") = false →
      (confirmGuard attr confirm e).defaultPrevented = true ∧
      (confirmGuard attr confirm e).propagationStopped = true) ∧
    (confirm (jsOrDefault attr "Подтвердить действие?") = true →
      confirmGuard attr confirm e = e) := by
  unfold confirmGuard
  constructor
  · intro h
    simp [h]
  · intro h
    simp [h]

/-- Witness for C6: a declined prompt on a fresh event prevents the default
and stops propagation. -/
theorem claim6_confirm_guard_blocks_witness :
    (confirmGuard "Удалить запись?" (fun _ => false) ⟨false, false⟩).defaultPrevented = true ∧
    (confirmGuard "Удалить запись?" (fun _ => false) ⟨false, false⟩).propagationStopped = true :=
  (claim6_confirm_guard_blocks "Удалить запись?" (fun _ => false) ⟨false, false⟩).1 rfl

/-- C8: the copy handler resolves a truthy literal `data-copy` attribute in
preference to any referenced element, and when the resolved text is empty it
is a no-op: no primary clipboard attempt, no fallback write, no feedback. -/
theorem claim8_copy_empty_noop (el : CopyEl) (target : Option CopyTarget) (ok : Bool) :
    (∀ s : String, el.dataCopy = some s → s ≠ "" → resolveCopyText el target = s) ∧
    (resolveCopyText el target = "" →
      copyClick el target ok = ⟨none, none, false⟩) := by
  constructor
  · intro s hs hne
    unfold resolveCopyText jsTruthyOpt
    rw [hs]
    simp [hne]
  · intro h
    unfold copyClick
    simp [h]

/-- Witness for C8: activating a copy element whose referenced input is
empty performs no clipboard write and shows no feedback. -/
theorem claim8_copy_empty_noop_witness :
    copyClick ⟨none, some "#share-url"⟩ (some ⟨"", ""⟩) true = ⟨none, none, false⟩ :=
  (claim8_copy_empty_noop ⟨none, some "#share-url"⟩ (some ⟨"", ""⟩) true).2 rfl

lemma debounce_fold_chain (ms : ℕ) :
    ∀ (l : List ℕ) (a : ℕ) (fires : List ℕ),
      List.Chain' (fun x y => x ≤ y ∧ y < x + ms) (a :: l) →
      l.foldl (debounceStep ms) ⟨some (a + ms), fires⟩ =
        ⟨some ((a :: l).getLast (List.cons_ne_nil a l) + ms), fires⟩ := by
  intro l
  induction l with
  | nil =>
    intro a fires _
    simp [List.getLast]
  | cons b l' ih =>
    intro a fires hch
    rw [List.chain'_cons] at hch
    obtain ⟨⟨_, hlt⟩, hch'⟩ := hch
    have hstep : debounceStep ms ⟨some (a + ms), fires⟩ b = ⟨some (b + ms), fires⟩ := by
      unfold debounceStep
      simp [if_neg (by omega : ¬ (a + ms ≤ b))]
    rw [List.foldl_cons, hstep, ih b fires hch']
    simp [List.getLast_cons]

/-- C1: on a debounced text field of an auto-submit form (interval `ms`,
300 in the source), a run of input events in which each event arrives within
the debounce window of the previous one produces exactly one resubmission,
fired one interval after the last event; each event cancels the pending
timer, and at any moment at most one timer (the `pending` component of the
state) exists per control. -/
theorem claim1_debounce_single_resubmit (ms : ℕ) (e : ℕ) (rest : List ℕ)
    (h : List.Chain' (fun x y => x ≤ y ∧ y < x + ms) (e :: rest)) :
    debounceRun ms (e :: rest) = [(e :: rest).getLast (List.cons_ne_nil e rest) + ms] := by
  unfold debounceRun
  rw [List.foldl_cons]
  have h0 : debounceStep ms ⟨none, []⟩ e = ⟨some (e + ms), []⟩ := rfl
  rw [h0, debounce_fold_chain ms rest e [] h]
  rfl

/-- Witness for C1: four keystrokes at 0, 100, 250 and 400 ms with the
300 ms interval of `initAutoSubmitFilters` yield one submission at 700 ms. -/
theorem claim1_debounce_single_resubmit_witness :
    debounceRun 300 [0, 100, 250, 400] = [700] := by
  have h := claim1_debounce_single_resubmit 300 0 [100, 250, 400]
    (by norm_num [List.chain'_cons])
  simpa using h

lemma foldl_append_chartAttempt :
    ∀ (canvases : List Canvas) (acc : List ChartOutcome),
      canvases.foldl (fun a c => a ++ [chartAttempt c]) acc =
        acc ++ canvases.map chartAttempt := by
  intro canvases
  induction canvases with
  | nil => intro acc; simp
  | cons c cs ih => intro acc; simp [ih]

lemma initCharts_eq_map (canvases : List Canvas) :
    initCharts canvases = canvases.map chartAttempt := by
  unfold initCharts
  simpa using foldl_append_chartAttempt canvases []

/-- C7: the canvas loop processes each chart canvas in isolation — every
canvas gets an outcome (the outcome list has one entry per canvas, a failure
being logged rather than thrown on), and the outcome at position `i` is a
function of canvas `i` alone, so a parse or construction failure on one
canvas cannot prevent any other canvas's chart from being built. -/
theorem claim7_chart_per_canvas_isolation (canvases : List Canvas) (i : ℕ)
    (hi : i < canvases.length) :
    (initCharts canvases).length = canvases.length ∧
    (initCharts canvases).get? i = some (chartAttempt (canvases.get ⟨i, hi⟩)) := by
  have hmap := initCharts_eq_map canvases
  constructor
  · rw [hmap]; simp
  · rw [hmap, List.get?_map, List.get?_eq_get hi]; rfl

/-- Witness for C7: with a first canvas whose `data-labels` is malformed
JSON and a healthy second canvas, the second canvas still gets its own
outcome, computed from it alone. -/
theorem claim7_chart_per_canvas_isolation_witness :
    (initCharts [⟨none, none, some "oops", some "[1]", none, none⟩,
                 ⟨none, none, some "[\"a\"]", some "[7]", none, none⟩]).get? 1 =
      some (chartAttempt ⟨none, none, some "[\"a\"]", some "[7]", none, none⟩) :=
  (claim7_chart_per_canvas_isolation
    [⟨none, none, some "oops", some "[1]", none, none⟩,
     ⟨none, none, some "[\"a\"]", some "[7]", none, none⟩] 1 (by simp)).2

lemma isDigit_ne_comma {c : Char} (h : c.isDigit = true) : c ≠ ',' := by
  intro he
  subst he
  exact absurd h (by decide)

lemma replaceFirstC_of_not_mem {pat rep : Char} :
    ∀ {l : List Char}, pat ∉ l → replaceFirstC pat rep l = l := by
  intro l
  induction l with
  | nil => intro _; rfl
  | cons c cs ih =>
    intro h
    simp only [List.mem_cons, not_or] at h
    unfold replaceFirstC
    rw [if_neg (fun hc => h.1 hc.symm), ih h.2]

lemma replaceFirstC_append_of_not_mem {pat rep : Char} :
    ∀ {l₁ : List Char} (l₂ : List Char), pat ∉ l₁ →
      replaceFirstC pat rep (l₁ ++ l₂) = l₁ ++ replaceFirstC pat rep l₂ := by
  intro l₁
  induction l₁ with
  | nil => intro l₂ _; rfl
  | cons c cs ih =>
    intro l₂ h
    simp only [List.mem_cons, not_or] at h
    simp only [List.cons_append, replaceFirstC]
    rw [if_neg (fun hc => h.1 hc.symm), List.append_eq, ih l₂ h.2]

/-- C4: for digit strings `a` and `b`, `parseNumber` gives the same value on
`a ++ "," ++ b` and `a ++ "." ++ b` — the comma decimal separator is
equivalent to the dot. -/
theorem claim4_parse_comma_dot_agree (a b : List Char)
    (ha : ∀ c ∈ a, c.isDigit = true) (hb : ∀ c ∈ b, c.isDigit = true) :
    parseNumber (some (String.mk (a ++ ',' :: b))) =
      parseNumber (some (String.mk (a ++ '.' :: b))) := by
  have hna : (',' : Char) ∉ a := fun hmem => isDigit_ne_comma (ha _ hmem) rfl
  have hnb : (',' : Char) ∉ b := fun hmem => isDigit_ne_comma (hb _ hmem) rfl
  show jsNumber (trimC (replaceFirstC ',' '.' (a ++ ',' :: b))) =
    jsNumber (trimC (replaceFirstC ',' '.' (a ++ '.' :: b)))
  have h1 : replaceFirstC ',' '.' (',' :: b) = '.' :: b := by
    unfold replaceFirstC; simp
  have h2 : replaceFirstC ',' '.' ('.' :: b) = '.' :: b := by
    unfold replaceFirstC
    rw [if_neg (by decide), replaceFirstC_of_not_mem hnb]
  rw [replaceFirstC_append_of_not_mem _ hna, replaceFirstC_append_of_not_mem _ hna, h1, h2]

/-- Witness for C4: `"1,5"` and `"1.5"` parse to the same value. -/
theorem claim4_parse_comma_dot_agree_witness :
    parseNumber (some (String.mk ['1', ',', '5'])) =
      parseNumber (some (String.mk ['1', '.', '5'])) :=
  claim4_parse_comma_dot_agree ['1'] ['5'] (by decide) (by decide)

lemma JSNum.lt_nan_left (y : JSNum) : JSNum.lt .nan y = false := by
  cases y <;> rfl

lemma JSNum.lt_nan_right (x : JSNum) : JSNum.lt x .nan = false := by
  cases x <;> rfl

lemma numericBlur_invalid (inp : NumericInput) (hv : inp.value ≠ "") :
    (numericBlur inp).invalid =
      (((parseNumber inp.dataMin).isFinite &&
        JSNum.lt (parseNumber (some (normalizeValue inp.value))) (parseNumber inp.dataMin)) ||
       ((parseNumber inp.dataMax).isFinite &&
        JSNum.lt (parseNumber inp.dataMax) (parseNumber (some (normalizeValue inp.value))))) := by
  unfold numericBlur
  rw [if_neg hv]

/-- C5: on blur of a nonempty numeric-marked input, the `is-invalid` flag is
set exactly when the parsed normalized value is strictly below the parsed
finite minimum or strictly above the parsed finite maximum; a value whose
parse is NaN is never flagged (the comparisons are skipped and the flag
cleared); an absent `data-min` leaves only the maximum constraint, an absent
`data-max` only the minimum, and with both absent the flag is always
cleared. -/
theorem claim5_numeric_range_flag (inp : NumericInput) (hv : inp.value ≠ "") :
    (∀ q m M : ℚ,
      parseNumber (some (normalizeValue inp.value)) = .fin q →
      parseNumber inp.dataMin = .fin m →
      parseNumber inp.dataMax = .fin M →
      ((numericBlur inp).invalid = true ↔ (q < m ∨ M < q))) ∧
    (parseNumber (some (normalizeValue inp.value)) = .nan →
      (numericBlur inp).invalid = false) ∧
    (inp.dataMin = none → ∀ q M : ℚ,
      parseNumber (some (normalizeValue inp.value)) = .fin q →
      parseNumber inp.dataMax = .fin M →
      ((numericBlur inp).invalid = true ↔ M < q)) ∧
    (inp.dataMax = none → ∀ q m : ℚ,
      parseNumber (some (normalizeValue inp.value)) = .fin q →
      parseNumber inp.dataMin = .fin m →
      ((numericBlur inp).invalid = true ↔ q < m)) ∧
    (inp.dataMin = none → inp.dataMax = none → (numericBlur inp).invalid = false) := by
  have hinv := numericBlur_invalid inp hv
  refine ⟨?_, ?_, ?_, ?_, ?_⟩
  · intro q m M hq hm hM
    rw [hinv, hq, hm, hM]
    simp [JSNum.isFinite, JSNum.lt]
  · intro hnan
    rw [hinv, hnan]
    simp [JSNum.lt_nan_left, JSNum.lt_nan_right]
  · intro hn q M hq hM
    rw [hinv, hn, hq, hM]
    simp [parseNumber, JSNum.isFinite, JSNum.lt]
  · intro hn q m hq hm
    rw [hinv, hn, hq, hm]
    simp [parseNumber, JSNum.isFinite, JSNum.lt]
  · intro hn hx
    rw [hinv, hn, hx]
    simp [parseNumber, JSNum.isFinite]

/-- Witness for C5: the value `" 7"` against bounds `1` and `4` is
normalized to `7` and flagged invalid, since `7 > 4`. -/
theorem claim5_numeric_range_flag_witness :
    (numericBlur ⟨" 7", false, some "1", some "4"⟩).invalid = true := by
  have h := (claim5_numeric_range_flag ⟨" 7", false, some "1", some "4"⟩ (by decide)).1
    7 1 4 (by decide) (by decide) (by decide)
  exact h.mpr (Or.inr (by norm_num))

lemma map_const_eq_replicate {α β : Type} (l : List α) (b : β) :
    l.map (fun _ => b) = List.replicate l.length b := by
  induction l with
  | nil => rfl
  | cons x xs ih => simp [ih, List.replicate]

/-- C3: whenever `buildChart` succeeds on a canvas whose `data-min` parses
to a finite value, the built dataset list contains a flat reference series
holding that constant once per category label, drawn dashed
(`borderDash [6,6]`) with no point markers (`pointRadius 0`); likewise for
`data-max`.  In particular the worked example — three category labels,
values `[62,65,70]`, min `50`, max `90` — builds exactly three series: the
primary one plus the two bounds each repeated three times. -/
theorem claim3_flat_reference_series (c : Canvas) (cfg : ChartConfig)
    (hok : buildChart c = .ok cfg) :
    (∀ m : ℚ, parseNumber c.minAttr = .fin m →
      Dataset.mk "Норма min" (List.replicate cfg.labels.length (JVal.num m)) 1 none 0
        (some [6, 6]) ∈ cfg.datasets) ∧
    (∀ m : ℚ, parseNumber c.maxAttr = .fin m →
      Dataset.mk "Норма max" (List.replicate cfg.labels.length (JVal.num m)) 1 none 0
        (some [6, 6]) ∈ cfg.datasets) ∧
    buildChart chartExample = .ok chartExampleConfig := by
  unfold buildChart at hok
  rcases h1 : jsonParseArr (jsAttrOr c.labelsAttr "[]") with e | labels
  · rw [h1] at hok; exact absurd hok (by simp)
  rw [h1] at hok
  rcases h2 : jsonParseArr (jsAttrOr c.valuesAttr "[]") with e | values
  · rw [h2] at hok; exact absurd hok (by simp)
  rw [h2] at hok
  simp only [Except.ok.injEq] at hok
  subst hok
  refine ⟨?_, ?_, rfl⟩
  · intro m hm
    rw [hm]
    simp [map_const_eq_replicate]
  · intro m hm
    rw [hm]
    rcases parseNumber c.minAttr with _ | b | q <;> simp [map_const_eq_replicate]

/-- Witness for C3: the example canvas's configuration contains the flat
minimum reference series `50, 50, 50`. -/
theorem claim3_flat_reference_series_witness :
    Dataset.mk "Норма min" (List.replicate 3 (JVal.num 50)) 1 none 0 (some [6, 6])
      ∈ chartExampleConfig.datasets := by
  have h := (claim3_flat_reference_series chartExample chartExampleConfig rfl).1
    50 (by decide)
  exact h

lemma replaceAllC_append (pat : Char) (rep : List Char) :
    ∀ l₁ l₂ : List Char,
      replaceAllC pat rep (l₁ ++ l₂) = replaceAllC pat rep l₁ ++ replaceAllC pat rep l₂ := by
  intro l₁ l₂
  induction l₁ with
  | nil => rfl
  | cons c cs ih => simp [replaceAllC, ih]

lemma escapeHtmlC_cons (c : Char) (cs : List Char) :
    escapeHtmlC (c :: cs) = escChar c ++ escapeHtmlC cs := by
  unfold escapeHtmlC escChar
  by_cases h1 : c = '&'
  · subst h1
    simp [replaceAllC, replaceAllC_append, ampEnt, ltEnt, gtEnt, quotEnt, aposEnt, sq]
  by_cases h2 : c = '<'
  · subst h2
    simp [replaceAllC, replaceAllC_append, ampEnt, ltEnt, gtEnt, quotEnt, aposEnt, sq]
  by_cases h3 : c = '>'
  · subst h3
    simp [replaceAllC, replaceAllC_append, ampEnt, ltEnt, gtEnt, quotEnt, aposEnt, sq]
  by_cases h4 : c = '"'
  · subst h4
    simp [replaceAllC, replaceAllC_append, ampEnt, ltEnt, gtEnt, quotEnt, aposEnt, sq]
  by_cases h5 : c = sq
  · subst h5
    simp [replaceAllC, replaceAllC_append, ampEnt, ltEnt, gtEnt, quotEnt, aposEnt, sq]
  simp [replaceAllC, replaceAllC_append, h1, h2, h3, h4, h5]

lemma escapeHtmlC_eq_flatEsc : ∀ s : List Char, escapeHtmlC s = flatEsc s := by
  intro s
  induction s with
  | nil => rfl
  | cons c cs ih =>
    rw [escapeHtmlC_cons, ih]
    rfl

lemma escChar_no_raw (c : Char) :
    ∀ x ∈ escChar c, x ≠ '<' ∧ x ≠ '>' ∧ x ≠ '"' ∧ x ≠ sq := by
  intro x hx
  unfold escChar at hx
  by_cases h1 : c = '&'
  · rw [if_pos h1] at hx
    simp [ampEnt] at hx
    rcases hx with rfl | rfl | rfl | rfl | rfl <;> decide
  rw [if_neg h1] at hx
  by_cases h2 : c = '<'
  · rw [if_pos h2] at hx
    simp [ltEnt] at hx
    rcases hx with rfl | rfl | rfl | rfl <;> decide
  rw [if_neg h2] at hx
  by_cases h3 : c = '>'
  · rw [if_pos h3] at hx
    simp [gtEnt] at hx
    rcases hx with rfl | rfl | rfl | rfl <;> decide
  rw [if_neg h3] at hx
  by_cases h4 : c = '"'
  · rw [if_pos h4] at hx
    simp [quotEnt] at hx
    rcases hx with rfl | rfl | rfl | rfl | rfl | rfl <;> decide
  rw [if_neg h4] at hx
  by_cases h5 : c = sq
  · rw [if_pos h5] at hx
    simp [aposEnt] at hx
    rcases hx with rfl | rfl | rfl | rfl | rfl | rfl <;> decide
  rw [if_neg h5] at hx
  simp at hx
  subst hx
  exact ⟨h2, h3, h4, h5⟩

lemma escChar_goodBlock (c : Char) : goodBlock (escChar c) := by
  unfold escChar goodBlock
  by_cases h1 : c = '&'
  · rw [if_pos h1]; refine ⟨by decide, by decide, by decide⟩
  rw [if_neg h1]
  by_cases h2 : c = '<'
  · rw [if_pos h2]; refine ⟨by decide, by decide, by decide⟩
  rw [if_neg h2]
  by_cases h3 : c = '>'
  · rw [if_pos h3]; refine ⟨by decide, by decide, by decide⟩
  rw [if_neg h3]
  by_cases h4 : c = '"'
  · rw [if_pos h4]; refine ⟨by decide, by decide, by decide⟩
  rw [if_neg h4]
  by_cases h5 : c = sq
  · rw [if_pos h5]; refine ⟨by decide, by decide, by decide⟩
  rw [if_neg h5]
  refine ⟨by simp, by simp, ?_⟩
  intro hh
  simp at hh
  exact absurd hh h1

lemma entity_head_start (bl out : List Char) (hbl : goodBlock bl)
    (hout : ∀ i, out.get? i = some '&' →
      ∃ e ∈ entityList, (out.drop i).take e.length = e) :
    ∀ i, (bl ++ out).get? i = some '&' →
      ∃ e ∈ entityList, ((bl ++ out).drop i).take e.length = e := by
  intro i hi
  obtain ⟨hne, htail, hhead⟩ := hbl
  by_cases hlt : i < bl.length
  · rw [List.get?_append hlt] at hi
    rcases i with _ | j
    · have hmem : bl ∈ entityList := hhead (by rwa [List.get?_zero] at hi)
      refine ⟨bl, hmem, ?_⟩
      rw [List.drop_zero]
      exact List.take_left bl out
    · rcases bl with _ | ⟨b, bs⟩
      · exact absurd rfl hne
      · have hampmem : ('&' : Char) ∈ bs := List.get?_mem hi
        exact absurd rfl (htail '&' hampmem)
  · have hge : bl.length ≤ i := Nat.not_lt.mp hlt
    rw [List.get?_append_right hge] at hi
    obtain ⟨e, he, hcap⟩ := hout _ hi
    have hdrop : (bl ++ out).drop i = out.drop (i - bl.length) := by
      conv_lhs => rw [show i = bl.length + (i - bl.length) by omega]
      exact List.drop_append _
    rw [hdrop]
    exact ⟨e, he, hcap⟩

lemma flatEsc_entity_start : ∀ s : List Char, ∀ i,
    (flatEsc s).get? i = some '&' →
    ∃ e ∈ entityList, ((flatEsc s).drop i).take e.length = e := by
  intro s
  induction s with
  | nil => intro i hi; simp [flatEsc] at hi
  | cons c cs ih =>
    exact entity_head_start (escChar c) (flatEsc cs) (escChar_goodBlock c) ih

lemma flatEsc_no_raw : ∀ s : List Char, ∀ x ∈ flatEsc s,
    x ≠ '<' ∧ x ≠ '>' ∧ x ≠ '"' ∧ x ≠ sq := by
  intro s
  induction s with
  | nil => intro x hx; simp [flatEsc] at hx
  | cons c cs ih =>
    intro x hx
    rw [show flatEsc (c :: cs) = escChar c ++ flatEsc cs from rfl] at hx
    rcases List.mem_append.mp hx with h | h
    · exact escChar_no_raw c x h
    · exact ih x h

/-- C9: the output of `escapeHtml` contains none of the raw characters `<`,
`>`, `"`, `'`, and every ampersand in it is the first character of one of
the five replacement entities — the consequence of replacing `&` first, so
no character introduced by a later pass is ever reprocessed within one
call. -/
theorem claim9_escape_html_entities (s : String) :
    (∀ x ∈ (escapeHtml s).data, x ≠ '<' ∧ x ≠ '>' ∧ x ≠ '"' ∧ x ≠ sq) ∧
    (∀ i, (escapeHtml s).data.get? i = some '&' →
      ∃ e ∈ entityList, ((escapeHtml s).data.drop i).take e.length = e) := by
  have hd : (escapeHtml s).data = flatEsc s.data := escapeHtmlC_eq_flatEsc s.data
  constructor
  · rw [hd]
    exact flatEsc_no_raw s.data
  · rw [hd]
    exact flatEsc_entity_start s.data

/-- Witness for C9: in the escaped form of `"x<y"` the character `x`
survives and is none of the four raw specials. -/
theorem claim9_escape_html_entities_witness :
    'x' ≠ '<' ∧ 'x' ≠ '>' ∧ 'x' ≠ '"' ∧ 'x' ≠ sq :=
  (claim9_escape_html_entities "x<y").1 'x' (by decide)

end MainJs
